import Mathlib

set_option maxRecDepth 40000

/-!
Verification of the react-auth-gate core: a shallow embedding of the
rule resolution and evaluation engine (src/core/ruleEngine.ts together
with src/core/types.ts) and of the dev-tools observable store
(src/devtools/DevStore.ts), with theorems checking the stated behaviour
of both against the embedded code.
-/

namespace ReactAuthGate

/-! ## Rule engine (src/core/ruleEngine.ts, src/core/types.ts) -/

/-- A JavaScript value thrown by a rule (or carried by a rejected
promise). The evaluator inspects it with
`error instanceof Error ? error.message : String(error)`:
an `Error` instance contributes its `message` field, anything else its
string conversion. -/
inductive JSError where
  | errorObj (message : String)
  | nonError (stringConversion : String)
deriving DecidableEq

/-- The message extraction
`error instanceof Error ? error.message : String(error)` from
`evaluateRule`. -/
def errorMessage : JSError → String
  | .errorObj message => message
  | .nonError stringConversion => stringConversion

/-- `PermissionContext` from src/core/types.ts: user, optional
resource, role strings, permission strings and a feature-flag map
(embedded as an association list). -/
structure PermissionContext (User Resource : Type) where
  user : User
  resource : Option Resource
  roles : List String
  permissions : List String
  flags : List (String × Bool)

/-- `PermissionRule` from src/core/types.ts. The TypeScript rule
returns `boolean | Promise<boolean>` and may throw or reject; after the
evaluator runs `await Promise.resolve(rule(context))` its complete
observable behaviour is either a boolean outcome or a raised error
value, embedded here as `Except`. Since the declared return type is
`boolean`, the defensive `Boolean(result)` coercion in the evaluator is
the identity on the returned value. -/
abbrev PermissionRule (User Resource : Type) :=
  PermissionContext User Resource → Except JSError Bool

/-- `PermissionRulesMap` from src/core/types.ts: a record mapping
permission-key strings to rules; absent keys look up to `none`
(`undefined`). Present keys hold functions, which are truthy, so the
`if (rulesMap[permissionKey])` test in the resolver is exactly a
presence test. -/
abbrev PermissionRulesMap (User Resource : Type) :=
  String → Option (PermissionRule User Resource)

/-- `PermissionCheck` from src/core/types.ts:
`string | string[] | PermissionRule`. The orchestrator discriminates
with `typeof check === 'function'`, `typeof check === 'string'` and
`Array.isArray(check)`; the constructor `invalid` stands for every
runtime value of none of those three shapes, which the untyped caller
may still pass. -/
inductive PermissionCheck (User Resource : Type) where
  | fn (rule : PermissionRule User Resource)
  | str (key : String)
  | arr (keys : List String)
  | invalid

/-- The evaluation mode `'any' | 'all'` of `evaluatePermission`. -/
inductive EvalMode where
  | any
  | all
deriving DecidableEq

/-- Return shape of `evaluateRule`:
`{ result: boolean; duration: number; error?: string }`. Durations are
wall-clock measurements, embedded as natural numbers supplied by a
timing oracle. -/
structure RuleEvalOutcome where
  result : Bool
  duration : Nat
  error : Option String
deriving DecidableEq

/-- `RuleEvaluationResult` from src/core/types.ts: one trace entry,
`{ rule, result, duration, error? }`. -/
structure RuleEvaluationResult where
  rule : String
  result : Bool
  duration : Nat
  error : Option String
deriving DecidableEq

/-- Return shape of `evaluatePermission`:
`{ allowed: boolean; ruleResults: RuleEvaluationResult[] }`. -/
structure PermissionDecision where
  allowed : Bool
  ruleResults : List RuleEvaluationResult
deriving DecidableEq

/-- `evaluateRule` from src/core/ruleEngine.ts. It runs
`await Promise.resolve(rule(context))` inside try/catch: a normal
outcome is returned with the measured duration and no error; a thrown
or rejected value is caught and becomes `result: false` with `error`
set by `errorMessage`. The wall-clock duration measured around the call
is nondeterministic real time, passed in as the oracle value
`duration`; the source assigns it identically on both paths. -/
def evaluateRule {User Resource : Type} (rule : PermissionRule User Resource)
    (context : PermissionContext User Resource) (duration : Nat) : RuleEvalOutcome :=
  match rule context with
  | .ok result => { result := result, duration := duration, error := none }
  | .error e => { result := false, duration := duration, error := some (errorMessage e) }

/-- `resolveStringRule` from src/core/ruleEngine.ts: a named rule in
the map wins; otherwise a rule testing
`ctx.permissions.includes(permissionKey) || ctx.roles.includes(permissionKey)`
is synthesized. The synthesized rule never throws. -/
def resolveStringRule {User Resource : Type} (permissionKey : String)
    (rulesMap : PermissionRulesMap User Resource)
    (_context : PermissionContext User Resource) : PermissionRule User Resource :=
  match rulesMap permissionKey with
  | some rule => rule
  | none => fun ctx =>
      .ok (ctx.permissions.contains permissionKey || ctx.roles.contains permissionKey)

/-- The `check.map(async (key) => ...)` body of the key-set case of
`evaluatePermission`, gathered positionally by `Promise.all`: the entry
for the key at position `i` carries that key as its `rule` tag and the
oracle duration `durations i`. `Promise.all` resolves to results in
input position order regardless of settlement order, which the
positional `List.enum` map embeds. -/
def evaluateKeySet {User Resource : Type} (keys : List String)
    (context : PermissionContext User Resource)
    (rulesMap : PermissionRulesMap User Resource)
    (durations : Nat → Nat) : List RuleEvaluationResult :=
  keys.enum.map (fun p =>
    let rule := resolveStringRule p.2 rulesMap context
    let evaluation := evaluateRule rule context (durations p.1)
    { rule := p.2, result := evaluation.result, duration := evaluation.duration,
                   error := evaluation.error })

/-- `evaluatePermission` from src/core/ruleEngine.ts. Case split on the
check shape: inline function, single string key, array of keys
(evaluated through `Promise.all` and aggregated by mode), and the
fail-closed default for any other shape. The function is total: every
failure of a rule is captured by `evaluateRule`, so the promise
returned by the source never rejects. -/
def evaluatePermission {User Resource : Type} (check : PermissionCheck User Resource)
    (context : PermissionContext User Resource)
    (rulesMap : PermissionRulesMap User Resource)
    (mode : EvalMode) (durations : Nat → Nat) : PermissionDecision :=
  match check with
  | .fn rule =>
      let evaluation := evaluateRule rule context (durations 0)
      { allowed := evaluation.result,
        ruleResults := [{ rule := "inline", result := evaluation.result,
                          duration := evaluation.duration, error := evaluation.error }] }
  | .str key =>
      let rule := resolveStringRule key rulesMap context
      let evaluation := evaluateRule rule context (durations 0)
      { allowed := evaluation.result,
        ruleResults := [{ rule := key, result := evaluation.result,
                          duration := evaluation.duration, error := evaluation.error }] }
  | .arr keys =>
      let evaluations := evaluateKeySet keys context rulesMap durations
      { allowed :=
          (match mode with
           | .all => evaluations.all (fun e => e.result)
           | .any => evaluations.any (fun e => e.result)),
        ruleResults := evaluations }
  | .invalid =>
      { allowed := false,
        ruleResults := [{ rule := "unknown", result := false, duration := 0,
                          error := some "Invalid permission check type" }] }

/-! ## Dev-tools store (src/devtools/DevStore.ts, src/core/types.ts) -/

/-- The `check` field of a recorded `PermissionEvaluation`:
`string | string[]` (an inline function check is recorded as the
literal string `"inline"` by the provider). -/
inductive RecordedCheck where
  | str (key : String)
  | arr (keys : List String)
deriving DecidableEq

/-- `PermissionEvaluation` from src/core/types.ts, the record shape the
store keeps in its history. The `resource` payload is opaque to the
store and embedded as an optional string token; so is the `user`
payload of the override, below. -/
structure PermissionEvaluation where
  id : String
  timestamp : Nat
  check : RecordedCheck
  resource : Option String
  allowed : Bool
  ruleResults : List RuleEvaluationResult
  component : Option String
  mode : Option EvalMode
deriving DecidableEq

/-- `DevToolsState` from src/core/types.ts, the full state object of
the `DevStore` class. Flag maps are embedded as association lists. -/
structure DevToolsState where
  evaluations : List PermissionEvaluation
  isOpen : Bool
  overrideUser : Option String
  overrideRoles : Option (List String)
  overridePermissions : Option (List String)
  overrideFlags : Option (List (String × Bool))
deriving DecidableEq

/-- Reading `flags[flag]` on a JavaScript object: a missing key reads
as `undefined`, which is falsy, so `!flags[flag]` is `true` exactly
when the stored value is absent or `false`; absence is embedded as the
falsy reading `false`. -/
def getFlag (flags : List (String × Bool)) (flag : String) : Bool :=
  match flags.lookup flag with
  | some value => value
  | none => false

/-- Writing `flags[flag] = value` on a JavaScript object: an existing
key is updated in place, a new key is appended. -/
def setFlag (flags : List (String × Bool)) (flag : String) (value : Bool) :
    List (String × Bool) :=
  if (flags.lookup flag).isSome then
    flags.map (fun p => if p.1 = flag then (flag, value) else p)
  else
    flags ++ [(flag, value)]

namespace DevStore

/-- The initial state of the `DevStore` class (field initializer of
`private state`). -/
def initialState : DevToolsState :=
  { evaluations := [], isOpen := false, overrideUser := none,
    overrideRoles := none, overridePermissions := none, overrideFlags := none }

/-- `getState`: `return { ...this.state }`. The shallow spread copy is
value-equal to the state; the reference sharing it introduces for the
nested arrays is modelled separately at the reference level below. -/
def getState (s : DevToolsState) : DevToolsState := s

/-- Every mutating method ends in `this.notify()`, which computes
`this.getState()` once and hands that one snapshot to every subscribed
listener. A method is embedded as a map from the pre-state to the
post-state paired with the list of snapshots emitted by its `notify`
calls, each subscribed listener receiving each emitted snapshot exactly
once. -/
abbrev Mutation := DevToolsState → DevToolsState × List DevToolsState

/-- `addEvaluation`:
`this.state.evaluations = [evaluation, ...this.state.evaluations].slice(0, 100)`
then `notify`. -/
def addEvaluation (evaluation : PermissionEvaluation) : Mutation := fun s =>
  let s2 := { s with evaluations := (evaluation :: s.evaluations).take 100 }
  (s2, [getState s2])

/-- `clearEvaluations`. -/
def clearEvaluations : Mutation := fun s =>
  let s2 := { s with evaluations := [] }
  (s2, [getState s2])

/-- `togglePanel`. -/
def togglePanel : Mutation := fun s =>
  let s2 := { s with isOpen := !s.isOpen }
  (s2, [getState s2])

/-- `setOpen`. -/
def setOpen (isOpen : Bool) : Mutation := fun s =>
  let s2 := { s with isOpen := isOpen }
  (s2, [getState s2])

/-- `setOverrideUser`. -/
def setOverrideUser (user : Option String) : Mutation := fun s =>
  let s2 := { s with overrideUser := user }
  (s2, [getState s2])

/-- `setOverrideRoles`. -/
def setOverrideRoles (roles : Option (List String)) : Mutation := fun s =>
  let s2 := { s with overrideRoles := roles }
  (s2, [getState s2])

/-- `setOverridePermissions`. -/
def setOverridePermissions (permissions : Option (List String)) : Mutation := fun s =>
  let s2 := { s with overridePermissions := permissions }
  (s2, [getState s2])

/-- `setOverrideFlags`. -/
def setOverrideFlags (flags : Option (List (String × Bool))) : Mutation := fun s =>
  let s2 := { s with overrideFlags := flags }
  (s2, [getState s2])

/-- `toggleRole`. The working array is
`this.state.overrideRoles || [...currentRoles]` (a present override is
used directly, even when empty, since every array is truthy; otherwise
a clone of the base). `indexOf` finds the first occurrence and
`splice(index, 1)` removes exactly that occurrence, embedded as
`List.erase`; the `index > -1` test is the containment test; otherwise
`push` appends. The result is written back through `setOverrideRoles`,
replaced by `undefined` when it came out empty; the single `notify`
happens inside that call. -/
def toggleRole (role : String) (currentRoles : List String) : Mutation := fun s =>
  let overrideRoles := s.overrideRoles.getD currentRoles
  let newRoles :=
    if overrideRoles.contains role then overrideRoles.erase role
    else overrideRoles ++ [role]
  setOverrideRoles (if newRoles.length > 0 then some newRoles else none) s

/-- `togglePermission`, identical in structure to `toggleRole`. -/
def togglePermission (permission : String) (currentPermissions : List String) :
    Mutation := fun s =>
  let overridePermissions := s.overridePermissions.getD currentPermissions
  let newPermissions :=
    if overridePermissions.contains permission then
      overridePermissions.erase permission
    else overridePermissions ++ [permission]
  setOverridePermissions
    (if newPermissions.length > 0 then some newPermissions else none) s

/-- `toggleFlag`: the working map is
`this.state.overrideFlags || { ...currentFlags }`, the flag is negated
in place (`overrideFlags[flag] = !overrideFlags[flag]`), and the map —
always a present object, never `undefined` — is written back through
`setOverrideFlags`. -/
def toggleFlag (flag : String) (currentFlags : List (String × Bool)) :
    Mutation := fun s =>
  let overrideFlags := s.overrideFlags.getD currentFlags
  let overrideFlags := setFlag overrideFlags flag (!(getFlag overrideFlags flag))
  setOverrideFlags (some overrideFlags) s

/-- `resetOverrides`: all four override fields are set back to
`undefined` in one mutation, followed by a single `notify`. -/
def resetOverrides : Mutation := fun s =>
  let s2 := { s with overrideUser := none, overrideRoles := none,
                     overridePermissions := none, overrideFlags := none }
  (s2, [getState s2])

/-- The state-mutating operations of the `DevStore` class, as one
syntactic type so that statements can quantify over every operation. -/
inductive StoreOp where
  | addEvaluation (evaluation : PermissionEvaluation)
  | clearEvaluations
  | togglePanel
  | setOpen (isOpen : Bool)
  | setOverrideUser (user : Option String)
  | setOverrideRoles (roles : Option (List String))
  | setOverridePermissions (permissions : Option (List String))
  | setOverrideFlags (flags : Option (List (String × Bool)))
  | toggleRole (role : String) (currentRoles : List String)
  | togglePermission (permission : String) (currentPermissions : List String)
  | toggleFlag (flag : String) (currentFlags : List (String × Bool))
  | resetOverrides
deriving DecidableEq

/-- Dispatch of a `StoreOp` to the corresponding method. -/
def applyOp : StoreOp → Mutation
  | .addEvaluation evaluation => addEvaluation evaluation
  | .clearEvaluations => clearEvaluations
  | .togglePanel => togglePanel
  | .setOpen isOpen => setOpen isOpen
  | .setOverrideUser user => setOverrideUser user
  | .setOverrideRoles roles => setOverrideRoles roles
  | .setOverridePermissions permissions => setOverridePermissions permissions
  | .setOverrideFlags flags => setOverrideFlags flags
  | .toggleRole role currentRoles => toggleRole role currentRoles
  | .togglePermission permission currentPermissions =>
      togglePermission permission currentPermissions
  | .toggleFlag flag currentFlags => toggleFlag flag currentFlags
  | .resetOverrides => resetOverrides

end DevStore

/-! ## Reference-level model of snapshot sharing

`getState` returns `{ ...this.state }`, a shallow copy: the copied
fields that hold arrays hold the same array references as the live
state. `toggleRole` mutates a present override array in place with
`splice`/`push` before writing it back. To reason about what a
listener observes through an already-delivered snapshot, the roles
arrays are modelled by explicit heap cells addressed by natural
numbers; the value-level model above is the same code with the heap
abstracted away. -/

/-- A heap of string-array cells; address `r` names `cells[r]`. -/
structure RoleHeap where
  cells : List (List String)
deriving DecidableEq

/-- Dereference an array address. -/
def RoleHeap.read (h : RoleHeap) (r : Nat) : List String :=
  h.cells.getD r []

/-- In-place mutation of the array behind an address. -/
def RoleHeap.write (h : RoleHeap) (r : Nat) (v : List String) : RoleHeap :=
  ⟨h.cells.set r v⟩

/-- Allocation of a fresh array (`[...currentRoles]`). -/
def RoleHeap.alloc (h : RoleHeap) (v : List String) : RoleHeap × Nat :=
  (⟨h.cells ++ [v]⟩, h.cells.length)

/-- The `overrideRoles` field at the reference level: `undefined` or an
array reference. A snapshot produced by `getState` carries the same
reference as the live state. -/
structure DevStoreRefState where
  overrideRoles : Option Nat
deriving DecidableEq

/-- `toggleRole` at the reference level. A present override array is
aliased and spliced or pushed in place; an absent one is replaced by a
freshly allocated clone of the base. Returns the new store state, the
heap after the in-place mutation, and the snapshot delivered to the
listeners by the `notify` inside `setOverrideRoles` — a shallow copy
holding the same array reference as the post-state. -/
def toggleRoleRef (role : String) (currentRoles : List String)
    (s : DevStoreRefState) (h : RoleHeap) :
    DevStoreRefState × RoleHeap × Option Nat :=
  let hr : RoleHeap × Nat :=
    match s.overrideRoles with
    | some r => (h, r)
    | none => h.alloc currentRoles
  let arr := hr.1.read hr.2
  let newArr := if arr.contains role then arr.erase role else arr ++ [role]
  let h2 := hr.1.write hr.2 newArr
  let s2 : DevStoreRefState :=
    ⟨if newArr.length > 0 then some hr.2 else none⟩
  (s2, h2, s2.overrideRoles)

/-- `createPermissionContext` from src/core/ruleEngine.ts. -/
def createPermissionContext {User Resource : Type} (user : User)
    (resource : Option Resource) (roles : List String) (permissions : List String)
    (flags : List (String × Bool)) : PermissionContext User Resource :=
  { user := user, resource := resource, roles := roles,
    permissions := permissions, flags := flags }

/-! ## Concrete fixtures for the worked examples -/

/-- A context with no roles and no permissions. -/
def exampleContext : PermissionContext Unit Unit :=
  { user := (), resource := none, roles := [], permissions := [], flags := [] }

/-- The context of the resolver example: `roles = ["admin"]`,
`permissions = []`. -/
def adminContext : PermissionContext Unit Unit :=
  { user := (), resource := none, roles := ["admin"], permissions := [], flags := [] }

/-- An empty rules map. -/
def emptyRules : PermissionRulesMap Unit Unit := fun _ => none

/-- The rules map `{admin: () => true, edit: () => false}` of the
key-set example. -/
def adminEditRules : PermissionRulesMap Unit Unit := fun key =>
  if key = "admin" then some (fun _ => .ok true)
  else if key = "edit" then some (fun _ => .ok false)
  else none

/-- A timing oracle reporting zero elapsed time for every rule. -/
def zeroDurations : Nat → Nat := fun _ => 0

/-- A rule that throws an `Error` whose message is `boom`. -/
def throwingRule : PermissionRule Unit Unit := fun _ => .error (.errorObj "boom")

/-- The `i`-th evaluation record appended in the capacity example. -/
def mkEval (i : Nat) : PermissionEvaluation :=
  { id := "eval-" ++ toString i, timestamp := i, check := .str "k",
    resource := none, allowed := true, ruleResults := [], component := none,
    mode := none }

/-- The store state after appending the 101 records
`mkEval 0, …, mkEval 100` in order to a fresh store. -/
def recorderAfter101 : DevToolsState :=
  (List.range 101).foldl
    (fun s i => (DevStore.addEvaluation (mkEval i) s).1) DevStore.initialState

/-! ## Helper lemmas -/

/-- The key-set trace carries the input keys as its rule tags, in input
order. -/
theorem evaluateKeySet_map_rule {User Resource : Type} (keys : List String)
    (context : PermissionContext User Resource)
    (rulesMap : PermissionRulesMap User Resource) (durations : Nat → Nat) :
    (evaluateKeySet keys context rulesMap durations).map (fun e => e.rule) = keys := by
  unfold evaluateKeySet
  rw [List.map_map]
  exact List.enum_map_snd keys

/-- The `length > 0 : kept | cleared` write-back of the toggle helpers,
rephrased through `isEmpty`. -/
theorem ifLengthPos (l : List String) :
    (if l.length > 0 then some l else none) =
      (if l.isEmpty then none else some l) := by
  cases l <;> simp

/-- A key occurring at most once is gone after `erase`. -/
theorem not_mem_erase_of_count_le_one (l : List String) (a : String)
    (h : l.count a ≤ 1) (hm : a ∈ l) : a ∉ l.erase a := by
  have h0 := List.count_erase_self a l
  intro hc
  have h1 : 0 < l.count a := List.count_pos_iff.mpr hm
  have h2 : 0 < (l.erase a).count a := List.count_pos_iff.mpr hc
  omega

/-! ## Claims -/

/-- Claim C1: for every key-set check, context, rules map and mode,
`evaluatePermission` returns one trace entry per key, positioned in
input key order (the positional `Promise.all` gather, independent of
completion order), and `allowed` is the conjunction of the entry
results under mode `all` and their disjunction under mode `any`; in
particular, with rules `{admin: () => true, edit: () => false}` and
keys `["admin", "edit"]`, mode `any` yields `allowed: true` with a
trace of length 2 in order `["admin", "edit"]`, and mode `all` yields
`allowed: false`. -/
theorem keySet_trace_order_and_aggregation :
    (∀ (User Resource : Type) (context : PermissionContext User Resource)
       (rulesMap : PermissionRulesMap User Resource) (mode : EvalMode)
       (durations : Nat → Nat) (keys : List String),
       (evaluatePermission (.arr keys) context rulesMap mode durations).ruleResults.map
           (fun e => e.rule) = keys ∧
       (evaluatePermission (.arr keys) context rulesMap mode durations).ruleResults.length
           = keys.length ∧
       (evaluatePermission (.arr keys) context rulesMap mode durations).allowed
           = (match mode with
              | .all => (evaluatePermission (.arr keys) context rulesMap mode
                  durations).ruleResults.all (fun e => e.result)
              | .any => (evaluatePermission (.arr keys) context rulesMap mode
                  durations).ruleResults.any (fun e => e.result))) ∧
    (evaluatePermission (.arr ["admin", "edit"]) exampleContext adminEditRules
        .any zeroDurations).allowed = true ∧
    (evaluatePermission (.arr ["admin", "edit"]) exampleContext adminEditRules
        .any zeroDurations).ruleResults.map (fun e => e.rule) = ["admin", "edit"] ∧
    (evaluatePermission (.arr ["admin", "edit"]) exampleContext adminEditRules
        .any zeroDurations).ruleResults.length = 2 ∧
    (evaluatePermission (.arr ["admin", "edit"]) exampleContext adminEditRules
        .all zeroDurations).allowed = false := by
  refine ⟨?_, by decide, by decide, by decide, by decide⟩
  intro User Resource context rulesMap mode durations keys
  refine ⟨evaluateKeySet_map_rule keys context rulesMap durations, ?_, ?_⟩
  · show (evaluateKeySet keys context rulesMap durations).length = keys.length
    unfold evaluateKeySet
    rw [List.length_map, List.enum_length]
  · cases mode <;> rfl

/-- Claim C2: resolution of a string key never fails and always yields
a rule: a key present in the rules map resolves to that named rule
unchanged, and an absent key resolves to the synthesized membership
rule `context.permissions.includes(key) || context.roles.includes(key)`
— with `roles = ["admin"]` and `permissions = []`, the key `admin` is
allowed and the key `editor` is denied. -/
theorem resolveStringRule_named_precedence_and_fallback :
    (∀ (User Resource : Type) (key : String)
       (rulesMap : PermissionRulesMap User Resource)
       (context : PermissionContext User Resource),
       resolveStringRule key rulesMap context =
         (rulesMap key).getD (fun ctx =>
           .ok (ctx.permissions.contains key || ctx.roles.contains key))) ∧
    resolveStringRule "admin" emptyRules adminContext adminContext = .ok true ∧
    resolveStringRule "editor" emptyRules adminContext adminContext = .ok false ∧
    (evaluatePermission (.str "admin") adminContext emptyRules .any
        zeroDurations).allowed = true ∧
    (evaluatePermission (.str "editor") adminContext emptyRules .any
        zeroDurations).allowed = false := by
  refine ⟨?_, rfl, rfl, rfl, rfl⟩
  intro User Resource key rulesMap context
  cases hm : rulesMap key <;> simp [resolveStringRule, hm, Option.getD]

/-- Claim C3: a rule whose invocation throws (or whose awaitable
rejects) is caught by `evaluateRule`, which returns `result: false`
with `error` set to the failure message (`message` of an `Error`, else
the string conversion); a throwing rule is never treated as a grant,
and `evaluatePermission` on such an inline rule resolves to
`allowed: false` with the failure recorded in the trace instead of
propagating (the embedded orchestrator is total, mirroring the source
promise that never rejects). -/
theorem evaluateRule_catches_failures :
    ∀ (User Resource : Type) (rule : PermissionRule User Resource)
      (context : PermissionContext User Resource) (duration : Nat) (e : JSError)
      (rulesMap : PermissionRulesMap User Resource) (mode : EvalMode)
      (durations : Nat → Nat),
      rule context = .error e →
      evaluateRule rule context duration =
        { result := false, duration := duration, error := some (errorMessage e) } ∧
      (evaluatePermission (.fn rule) context rulesMap mode durations).allowed
          = false ∧
      (evaluatePermission (.fn rule) context rulesMap mode durations).ruleResults
          = [{ rule := "inline", result := false, duration := durations 0,
               error := some (errorMessage e) }] := by
  intro User Resource rule context duration e rulesMap mode durations h
  refine ⟨?_, ?_, ?_⟩ <;> simp [evaluateRule, evaluatePermission, h]

/-- Witness for C3: the throwing rule with message `boom`, evaluated
concretely. -/
theorem evaluateRule_catches_failures_witness :
    evaluateRule throwingRule exampleContext 5 =
      { result := false, duration := 5, error := some "boom" } ∧
    (evaluatePermission (.fn throwingRule) exampleContext emptyRules .any
        zeroDurations).allowed = false ∧
    (evaluatePermission (.fn throwingRule) exampleContext emptyRules .any
        zeroDurations).ruleResults =
      [{ rule := "inline", result := false, duration := 0, error := some "boom" }] :=
  evaluateRule_catches_failures Unit Unit throwingRule exampleContext 5
    (.errorObj "boom") emptyRules .any zeroDurations rfl

/-- Claim C4: an empty key-set evaluates to `allowed: true` under mode
`all` (vacuous truth) and `allowed: false` under mode `any`, with an
empty trace, for every context and rules map. -/
theorem emptyKeySet_vacuous :
    ∀ (User Resource : Type) (context : PermissionContext User Resource)
      (rulesMap : PermissionRulesMap User Resource) (durations : Nat → Nat),
      evaluatePermission (.arr []) context rulesMap .all durations
          = { allowed := true, ruleResults := [] } ∧
      evaluatePermission (.arr []) context rulesMap .any durations
          = { allowed := false, ruleResults := [] } := by
  intro User Resource context rulesMap durations
  exact ⟨rfl, rfl⟩

/-- Claim C5: a check of unrecognized shape yields `allowed: false`
with exactly one trace entry
`{rule: "unknown", result: false, duration: 0, error: "Invalid permission check type"}`
(the field the spec calls `durationMs` is `duration` in the source),
for every context, rules map and mode, without throwing. -/
theorem invalidCheck_failClosed :
    ∀ (User Resource : Type) (context : PermissionContext User Resource)
      (rulesMap : PermissionRulesMap User Resource) (mode : EvalMode)
      (durations : Nat → Nat),
      evaluatePermission .invalid context rulesMap mode durations =
        { allowed := false,
          ruleResults := [{ rule := "unknown", result := false, duration := 0,
                            error := some "Invalid permission check type" }] } := by
  intro User Resource context rulesMap mode durations
  rfl

/-- Claim C6: the evaluation history never exceeds 100 entries: every
append prepends the new record at index 0 and truncates to the first
100 entries, and appending 101 records to a fresh store leaves exactly
100 with the 1st-appended record absent and the 101st at index 0. -/
theorem recorder_capacity :
    (∀ (s : DevToolsState) (e : PermissionEvaluation),
       ((DevStore.addEvaluation e s).1).evaluations
           = (e :: s.evaluations).take 100) ∧
    (∀ (s : DevToolsState) (e : PermissionEvaluation),
       ((DevStore.addEvaluation e s).1).evaluations.length ≤ 100) ∧
    recorderAfter101.evaluations.length = 100 ∧
    recorderAfter101.evaluations.head? = some (mkEval 100) ∧
    ¬ mkEval 0 ∈ recorderAfter101.evaluations := by
  refine ⟨fun s e => rfl, ?_, by decide, by decide, by decide⟩
  intro s e
  show ((e :: s.evaluations).take 100).length ≤ 100
  rw [List.length_take]
  exact Nat.min_le_left _ _

/-- Counterexample to claim C7: with base roles `["a", "b"]`, the
second `toggleRole("x", ["a", "b"])` sets the override to the explicit
list `["a", "b"]` — after removing `x` the working set still has two
entries, so the `length > 0` write-back keeps it — not to the absent
override the claim requires. -/
theorem toggleRole_second_call_keeps_explicit_override :
    (((DevStore.toggleRole "x" ["a", "b"])
        ((DevStore.toggleRole "x" ["a", "b"]) DevStore.initialState).1).1).overrideRoles
      = some ["a", "b"] := by
  decide

/-- Claim C7 amended: from no override and base roles `["a", "b"]`, one
`toggleRole("x", ["a", "b"])` sets the override to `["a", "b", "x"]`
and a second identical call sets it to the explicit list `["a", "b"]`
(not back to absent and not to `[]`); the override returns to absent
only when the toggled set comes out empty, as with base `[]`, where
toggling `x` twice does restore the absent override. -/
theorem toggleRole_roundTrip_amended :
    ((DevStore.toggleRole "x" ["a", "b"] DevStore.initialState).1).overrideRoles
        = some ["a", "b", "x"] ∧
    (((DevStore.toggleRole "x" ["a", "b"])
        ((DevStore.toggleRole "x" ["a", "b"]) DevStore.initialState).1).1).overrideRoles
        = some ["a", "b"] ∧
    ((DevStore.toggleRole "x" [] DevStore.initialState).1).overrideRoles
        = some ["x"] ∧
    (((DevStore.toggleRole "x" [])
        ((DevStore.toggleRole "x" []) DevStore.initialState).1).1).overrideRoles
        = none := by
  decide

/-- Counterexample to claim C8: with base `["x", "x"]` (duplicates are
tolerated in role sequences), toggling `x` removes only the first
occurrence — the override becomes `["x"]` and the key is still a
member, so its membership was not flipped. -/
theorem toggle_duplicate_key_not_flipped :
    ((DevStore.toggleRole "x" ["x", "x"] DevStore.initialState).1).overrideRoles
        = some ["x"] ∧
    ("x" ∈ (["x"] : List String)) := by
  decide

/-- Claim C8 amended: every role or permission toggle takes the current
override if present, else the base sequence, removes the first
occurrence of the key if present (so a duplicated key may remain a
member) and otherwise appends the key, and writes the result back as
the override — except that an empty result clears the override to
absent rather than storing an empty sequence; when the key occurs at
most once in the working set this is a membership flip. -/
theorem toggle_membership_amended :
    ∀ (s : DevToolsState) (key : String) (base : List String),
      ((DevStore.toggleRole key base s).1).overrideRoles =
        (let working := s.overrideRoles.getD base
         let flipped := if working.contains key then working.erase key
                        else working ++ [key]
         if flipped.isEmpty then none else some flipped) ∧
      ((DevStore.togglePermission key base s).1).overridePermissions =
        (let working := s.overridePermissions.getD base
         let flipped := if working.contains key then working.erase key
                        else working ++ [key]
         if flipped.isEmpty then none else some flipped) ∧
      ((s.overrideRoles.getD base).count key ≤ 1 →
        ((if (s.overrideRoles.getD base).contains key then
            (s.overrideRoles.getD base).erase key
          else (s.overrideRoles.getD base) ++ [key]).contains key
          = !((s.overrideRoles.getD base).contains key))) := by
  intro s key base
  refine ⟨?_, ?_, ?_⟩
  · simp only [DevStore.toggleRole, DevStore.setOverrideRoles, DevStore.getState]
    exact ifLengthPos _
  · simp only [DevStore.togglePermission, DevStore.setOverridePermissions,
      DevStore.getState]
    exact ifLengthPos _
  · intro hcount
    by_cases hm : key ∈ s.overrideRoles.getD base
    · have hout := not_mem_erase_of_count_le_one _ _ hcount hm
      simp [hm, hout]
    · simp [hm]

/-- Witness for C8 amended: the toggle from base `["a"]` with the
fresh key `x`, where the working set is duplicate-free. -/
theorem toggle_membership_amended_witness :
    ((DevStore.toggleRole "x" ["a"] DevStore.initialState).1).overrideRoles
        = some ["a", "x"] ∧
    ((DevStore.togglePermission "x" ["a"] DevStore.initialState).1).overridePermissions
        = some ["a", "x"] ∧
    ((if (["a"] : List String).contains "x" then (["a"] : List String).erase "x"
      else ["a"] ++ ["x"]).contains "x"
      = !((["a"] : List String).contains "x")) :=
  have h := toggle_membership_amended DevStore.initialState "x" ["a"]
  ⟨h.1, h.2.1, h.2.2 (by decide)⟩

/-- Counterexample to claim C9: `getState` is a shallow spread copy, so
a delivered snapshot shares its override array with the live state, and
`toggleRole` splices or pushes that array in place. Concretely: the
snapshot delivered by the first `toggleRole` call references cell 0,
whose contents are `["a", "x"]` at delivery; the later
`toggleRole("y", ["a"])` pushes onto the same cell in place, after
which the already-delivered snapshot dereferences to
`["a", "x", "y"]` — it was mutated after delivery. -/
theorem snapshot_mutated_after_delivery :
    (toggleRoleRef "x" ["a"] ⟨none⟩ ⟨[]⟩).2.2 = some 0 ∧
    (toggleRoleRef "x" ["a"] ⟨none⟩ ⟨[]⟩).2.1.read 0 = ["a", "x"] ∧
    ((toggleRoleRef "y" ["a"] (toggleRoleRef "x" ["a"] ⟨none⟩ ⟨[]⟩).1
        (toggleRoleRef "x" ["a"] ⟨none⟩ ⟨[]⟩).2.1).2.1).read 0
      = ["a", "x", "y"] := by
  decide

/-- Claim C9 amended: every state-mutating store operation notifies
each subscribed listener synchronously exactly once per call with one
snapshot of the whole post-state (never a partial diff), and
`resetOverrides` sets all four override fields to absent in one
mutation with a single notification; the snapshot is however a shallow
copy that shares the nested override arrays by reference, so a
`toggleRole` on a present override mutates the very cell the earlier
snapshots reference (in place, before the write-back). -/
theorem notify_once_full_snapshot_amended :
    (∀ (op : DevStore.StoreOp) (s : DevToolsState),
       (DevStore.applyOp op s).2 = [(DevStore.applyOp op s).1]) ∧
    (∀ s : DevToolsState,
       ((DevStore.resetOverrides s).1).overrideUser = none ∧
       ((DevStore.resetOverrides s).1).overrideRoles = none ∧
       ((DevStore.resetOverrides s).1).overridePermissions = none ∧
       ((DevStore.resetOverrides s).1).overrideFlags = none ∧
       (DevStore.resetOverrides s).2 = [(DevStore.resetOverrides s).1]) ∧
    (∀ (s : DevStoreRefState) (h : RoleHeap) (role : String)
       (base : List String) (r : Nat),
       s.overrideRoles = some r → r < h.cells.length →
       (toggleRoleRef role base s h).2.1.read r =
         (if (h.read r).contains role then (h.read r).erase role
          else h.read r ++ [role])) := by
  refine ⟨?_, ?_, ?_⟩
  · intro op s
    cases op <;> rfl
  · intro s
    exact ⟨rfl, rfl, rfl, rfl, rfl⟩
  · intro s h role base r hr hlt
    simp [toggleRoleRef, hr, RoleHeap.read, RoleHeap.write, List.getD,
      List.getElem?_set_self, hlt]

/-- Witness for C9 amended: a concrete store with an override at cell 0
in a one-cell heap. -/
theorem notify_once_full_snapshot_amended_witness :
    (DevStore.applyOp .resetOverrides DevStore.initialState).2
        = [(DevStore.applyOp .resetOverrides DevStore.initialState).1] ∧
    ((DevStore.resetOverrides DevStore.initialState).1).overrideUser = none ∧
    (toggleRoleRef "y" ["b"] ⟨some 0⟩ ⟨[["a"]]⟩).2.1.read 0 =
      (if (["a"] : List String).contains "y" then (["a"] : List String).erase "y"
       else ["a"] ++ ["y"]) :=
  ⟨notify_once_full_snapshot_amended.1 .resetOverrides DevStore.initialState,
   (notify_once_full_snapshot_amended.2.1 DevStore.initialState).1,
   notify_once_full_snapshot_amended.2.2 ⟨some 0⟩ ⟨[["a"]]⟩ "y" ["b"] 0 rfl
     (by decide)⟩

/-- Claim C10: `toggleFlag` always leaves the flag override present — a
map equal to the working map (existing override, else a copy of the
base) with the given key negated — even when the base was empty or
every flag is false; across all store operations, `overrideFlags`
becomes absent only through `resetOverrides` or an explicit
`setOverrideFlags(undefined)` (or by already being absent and
untouched). -/
theorem toggleFlag_override_always_present :
    (∀ (s : DevToolsState) (flag : String) (base : List (String × Bool)),
       ((DevStore.toggleFlag flag base s).1).overrideFlags =
         some (setFlag (s.overrideFlags.getD base) flag
           (!(getFlag (s.overrideFlags.getD base) flag)))) ∧
    (∀ (op : DevStore.StoreOp) (s : DevToolsState),
       ((DevStore.applyOp op s).1).overrideFlags = none →
       s.overrideFlags = none ∨ op = .resetOverrides ∨
         op = .setOverrideFlags none) := by
  refine ⟨fun s flag base => rfl, ?_⟩
  intro op s h
  cases op with
  | setOverrideFlags flags =>
      refine Or.inr (Or.inr ?_)
      have hf : flags = none := h
      rw [hf]
  | toggleFlag flag base =>
      exact absurd h (by simp [DevStore.applyOp, DevStore.toggleFlag,
        DevStore.setOverrideFlags, DevStore.getState])
  | resetOverrides => exact Or.inr (Or.inl rfl)
  | addEvaluation e => exact Or.inl h
  | clearEvaluations => exact Or.inl h
  | togglePanel => exact Or.inl h
  | setOpen isOpen => exact Or.inl h
  | setOverrideUser user => exact Or.inl h
  | setOverrideRoles roles => exact Or.inl h
  | setOverridePermissions permissions => exact Or.inl h
  | toggleRole role currentRoles => exact Or.inl h
  | togglePermission permission currentPermissions => exact Or.inl h

/-- Witness for C10: a fresh store, a toggled flag, and the reset
operation. -/
theorem toggleFlag_override_always_present_witness :
    ((DevStore.toggleFlag "f" [] DevStore.initialState).1).overrideFlags =
      some (setFlag ((DevStore.initialState).overrideFlags.getD []) "f"
        (!(getFlag ((DevStore.initialState).overrideFlags.getD []) "f"))) ∧
    (DevStore.initialState.overrideFlags = none ∨
      DevStore.StoreOp.resetOverrides = DevStore.StoreOp.resetOverrides ∨
      DevStore.StoreOp.resetOverrides = DevStore.StoreOp.setOverrideFlags none) :=
  ⟨toggleFlag_override_always_present.1 DevStore.initialState "f" [],
   toggleFlag_override_always_present.2 .resetOverrides DevStore.initialState rfl⟩

end ReactAuthGate
